import Mathlib

/-!
Verification of the order-management admin panel.

The repository has two components:
- an orders table viewer (`OrdersTable`): `fetchOrders` issues a top-level
  query for orders sorted by `created_at` descending, then one item query per
  order, joining client-side; `calculateSubtotal` sums `price * quantity`;
  a single `expandedOrderId` selector drives per-row expand/collapse.
- a settings page (`Admin`): `loadSettings` reads one key-value record by
  unique key, `handleSave` does a check-then-act upsert on that key.

Database rows and query outcomes are embedded shallowly: a query response is
either an error or (possibly null) data, mirroring the `{ data, error }`
destructuring in the source; currency amounts are integers (`Int`, matching
the schema's integer columns).
-/

namespace AdminPanel

/-- One product line of an order (`order_items` row as selected by the item
query: `product_name, price, quantity`). -/
structure OrderItem where
  product_name : String
  price : Int
  quantity : Int
  deriving DecidableEq, Repr

/-- One row of the top-level `orders` query (all selected columns). -/
structure OrderRow where
  id : String
  order_token : String
  name : String
  phone : String
  email : String
  special_instructions : String
  payment_proof_url : Option String
  payment_method : String
  created_at : Nat
  delivery_fee : Int
  total_amount : Int
  deriving DecidableEq, Repr

/-- A fully joined order: the row plus its fetched item list, as assembled by
`fetchOrders` (`{ ...order, items: itemsData || [] }`). -/
structure Order extends OrderRow where
  items : List OrderItem
  deriving DecidableEq, Repr

/-- `calculateSubtotal` from `OrdersTable`:
`items.reduce((sum, item) => sum + item.price * item.quantity, 0)`. -/
def calculateSubtotal (items : List OrderItem) : Int :=
  items.foldl (fun sum item => sum + item.price * item.quantity) 0

/-- `reduce` with a running accumulator equals the accumulator plus the sum of
the per-item products. -/
theorem calculateSubtotal_foldl_eq (items : List OrderItem) (a : Int) :
    items.foldl (fun sum item => sum + item.price * item.quantity) a
      = a + (items.map (fun item => item.price * item.quantity)).sum := by
  induction items generalizing a with
  | nil => simp
  | cons x xs ih =>
      simp only [List.foldl_cons, List.map_cons, List.sum_cons, ih]
      ring

/-- C3: `calculateSubtotal` returns the sum over all items of price times
quantity, and returns 0 on the empty item list. -/
theorem calculateSubtotal_eq_sum (items : List OrderItem) :
    calculateSubtotal items
        = (items.map (fun item => item.price * item.quantity)).sum
      ∧ calculateSubtotal ([] : List OrderItem) = 0 := by
  constructor
  · simpa using calculateSubtotal_foldl_eq items 0
  · rfl

/-- C9: the subtotal is independent of item order: reversing the item list
does not change `calculateSubtotal`. -/
theorem calculateSubtotal_reverse (items : List OrderItem) :
    calculateSubtotal items.reverse = calculateSubtotal items := by
  have h1 := calculateSubtotal_foldl_eq items.reverse 0
  have h2 := calculateSubtotal_foldl_eq items 0
  simp only [zero_add] at h1 h2
  rw [calculateSubtotal, calculateSubtotal, h1, h2, List.map_reverse,
    List.sum_reverse]

/-! ### The fetch environment

A supabase query resolves to `{ data, error }`; on error `data` is null, on
success `data` may still be null in principle (the code guards `!ordersData`).
`Resp α` captures exactly the shape the code destructures. -/

/-- Outcome of one query: an error (data null), or data that is `none` (null)
or an actual value. -/
inductive Resp (α : Type) where
  | err
  | ok (data : Option α)
  deriving DecidableEq, Repr

/-- The `data` field of a response: null on error. -/
def Resp.getData {α : Type} : Resp α → Option α
  | .err => none
  | .ok d => d

/-- The responses `fetchOrders` sees in one run: the top-level orders query
and, per order id, the item query for that order. -/
structure FetchEnv where
  ordersResp : Resp (List OrderRow)
  itemsResp : String → Resp (List OrderItem)

/-- The per-order join body of `fetchOrders`: `{ ...order, items: itemsData
|| [] }` where `itemsData` is the item query's data (null on failure). -/
def joinItems (env : FetchEnv) (order : OrderRow) : Order :=
  { order with items := (env.itemsResp order.id).getData.getD [] }

/-- `fetchOrders` from `OrdersTable`: on `ordersError` it sets the error
message and stops; on null data it produces the empty list; otherwise it maps
every order row to its joined record (`Promise.all` collects the item-query
results back into the positions of the order list, so the join is the map). -/
def fetchOrders (env : FetchEnv) : Except String (List Order) :=
  match env.ordersResp with
  | .err => .error "Failed to fetch orders"
  | .ok none => .ok []
  | .ok (some ordersData) => .ok (ordersData.map (joinItems env))

/-! ### Component state after a fetch

`OrdersTable` starts with `orders = []`, `error = null`; one fetch runs on
mount. On the error branch it sets `error` and returns (orders untouched);
on success it stores the joined list. The render picks the error view when
`error` is set, the empty view when no orders, else the table. -/

/-- `orders` and `error` state of `OrdersTable` after its mount-time fetch. -/
structure ViewState where
  orders : List Order
  error : Option String
  deriving DecidableEq, Repr

/-- State transition applied by `fetchOrders` to the freshly mounted
component (initial `orders = []`). -/
def applyFetch (r : Except String (List Order)) : ViewState :=
  match r with
  | .error e => { orders := [], error := some e }
  | .ok os => { orders := os, error := none }

/-- What the component renders (after loading ends). -/
inductive RenderView where
  | errorView (msg : String)
  | emptyView
  | tableView (orders : List Order)
  deriving DecidableEq, Repr

/-- The top-level render dispatch of `OrdersTable`: error banner if `error`
is set, the no-orders message if the list is empty, else the orders table. -/
def render (s : ViewState) : RenderView :=
  match s.error with
  | some e => .errorView e
  | none => if s.orders.isEmpty then .emptyView else .tableView s.orders

/-! ### Database-level query semantics

`fetchOrders` asks the store for `orders` ordered by `created_at` descending
and, per order, for the `order_items` rows matching its id. The store-side
semantics of `order(created_at, descending)` and `eq(order_id, id)` are
embedded here so the sortedness claim is about the whole pipeline. -/

/-- One `order_items` row (foreign key plus the selected columns). -/
structure ItemRow where
  order_id : String
  product_name : String
  price : Int
  quantity : Int
  deriving DecidableEq, Repr

/-- The columns of an item row that the item query selects. -/
def ItemRow.toOrderItem (r : ItemRow) : OrderItem :=
  { product_name := r.product_name, price := r.price, quantity := r.quantity }

/-- The persisted tables the component reads. -/
structure Db where
  orders : List OrderRow
  order_items : List ItemRow

/-- The descending-`created_at` comparison used by
`order(created_at, { ascending: false })`. -/
def newestFirst (a b : OrderRow) : Prop :=
  b.created_at ≤ a.created_at

instance : DecidableRel newestFirst :=
  fun a b => Nat.decLe b.created_at a.created_at

instance : IsTotal OrderRow newestFirst :=
  ⟨fun a b => Nat.le_total b.created_at a.created_at⟩

instance : IsTrans OrderRow newestFirst :=
  ⟨fun _ _ _ hab hbc => le_trans hbc hab⟩

/-- The top-level query data: all orders, newest first. -/
def selectOrdersDesc (db : Db) : List OrderRow :=
  db.orders.insertionSort newestFirst

/-- The item query data for one order id: rows with that foreign key. -/
def selectItems (db : Db) (id : String) : List OrderItem :=
  (db.order_items.filter (fun r => r.order_id == id)).map ItemRow.toOrderItem

/-- The environment a run of `fetchOrders` sees over database `db` when the
top-level query succeeds and the item query for id `i` fails iff
`itemFail i`. -/
def mkEnv (db : Db) (itemFail : String → Bool) : FetchEnv where
  ordersResp := .ok (some (selectOrdersDesc db))
  itemsResp := fun i =>
    if itemFail i then .err else .ok (some (selectItems db i))

/-- The join never touches the order's own columns. -/
theorem joinItems_toOrderRow (env : FetchEnv) (o : OrderRow) :
    (joinItems env o).toOrderRow = o :=
  rfl

/-- Mapping the join over rows reproduces the rows. -/
theorem map_toOrderRow_map_joinItems (env : FetchEnv) (rows : List OrderRow) :
    (rows.map (joinItems env)).map Order.toOrderRow = rows := by
  rw [List.map_map]
  have h : Order.toOrderRow ∘ joinItems env = id := funext (fun _ => rfl)
  rw [h, List.map_id]

/-- C2: over any database, `fetchOrders` succeeds with a sequence whose rows
are exactly the Step-1 sorted order list (newest first), the join preserves
that ordering, and any order with a strictly larger creation timestamp
appears strictly earlier. -/
theorem fetchOrders_sorted_desc (db : Db) (itemFail : String → Bool) :
    ∃ res, fetchOrders (mkEnv db itemFail) = .ok res ∧
      res.map Order.toOrderRow = selectOrdersDesc db ∧
      ∀ i j (hi : i < res.length) (hj : j < res.length),
        (res.get ⟨j, hj⟩).created_at < (res.get ⟨i, hi⟩).created_at → i < j := by
  refine ⟨(selectOrdersDesc db).map (joinItems (mkEnv db itemFail)), rfl,
    map_toOrderRow_map_joinItems _ _, ?_⟩
  intro i j hi hj hlt
  have hs : List.Sorted newestFirst (selectOrdersDesc db) :=
    List.sorted_insertionSort newestFirst db.orders
  by_contra hij
  push_neg at hij
  rcases lt_or_eq_of_le hij with hji | hji
  · have hi' : i < (selectOrdersDesc db).length := by
      simpa using hi
    have hj' : j < (selectOrdersDesc db).length := by
      simpa using hj
    have hrel := List.pairwise_iff_get.mp hs ⟨j, hj'⟩ ⟨i, hi'⟩ hji
    have hgi : ((selectOrdersDesc db).map
        (joinItems (mkEnv db itemFail))).get ⟨i, hi⟩
          = joinItems (mkEnv db itemFail) ((selectOrdersDesc db).get ⟨i, hi'⟩) := by
      simp [List.getElem_map]
    have hgj : ((selectOrdersDesc db).map
        (joinItems (mkEnv db itemFail))).get ⟨j, hj⟩
          = joinItems (mkEnv db itemFail) ((selectOrdersDesc db).get ⟨j, hj'⟩) := by
      simp [List.getElem_map]
    rw [hgi, hgj] at hlt
    exact absurd hrel (not_le_of_lt hlt)
  · subst hji
    exact lt_irrefl _ hlt

/-- C1: when the top-level query returns `rows`, the item query for order id
`x` fails, and every other item query succeeds, the fetch still succeeds, the
result contains every row from the top-level query in order, the order with
id `x` carries an empty item list, and every other order carries its queried
items. -/
theorem fetchOrders_item_failure (rows : List OrderRow)
    (itemsResp : String → Resp (List OrderItem)) (x : String)
    (hx : itemsResp x = .err)
    (hothers : ∀ y, y ≠ x → ∃ l, itemsResp y = .ok (some l)) :
    ∃ res, fetchOrders ⟨.ok (some rows), itemsResp⟩ = .ok res ∧
      res.map Order.toOrderRow = rows ∧
      ∀ o ∈ res, (o.id = x → o.items = []) ∧
        (o.id ≠ x → ∃ l, itemsResp o.id = .ok (some l) ∧ o.items = l) := by
  refine ⟨rows.map (joinItems ⟨.ok (some rows), itemsResp⟩), rfl,
    map_toOrderRow_map_joinItems _ _, ?_⟩
  intro o ho
  rcases List.mem_map.mp ho with ⟨r, _, rfl⟩
  constructor
  · intro hid
    have hid' : r.id = x := hid
    simp [joinItems, hid', hx, Resp.getData]
  · intro hid
    have hid' : r.id ≠ x := hid
    rcases hothers r.id hid' with ⟨l, hl⟩
    refine ⟨l, ?_, ?_⟩
    · simpa [joinItems] using hl
    · simp [joinItems, hl, Resp.getData]

/-- C5: when the top-level order query fails, `fetchOrders` yields the
orders-unavailable error outcome: the same error result regardless of the
item-query environment (no item query can influence the run), no order data
is produced, and the component surfaces the error view with no partial
table. -/
theorem fetchOrders_orders_failure
    (itemsResp itemsResp' : String → Resp (List OrderItem)) :
    fetchOrders ⟨.err, itemsResp⟩ = .error "Failed to fetch orders" ∧
    fetchOrders ⟨.err, itemsResp⟩ = fetchOrders ⟨.err, itemsResp'⟩ ∧
    applyFetch (fetchOrders ⟨.err, itemsResp⟩)
      = { orders := [], error := some "Failed to fetch orders" } ∧
    render (applyFetch (fetchOrders ⟨.err, itemsResp⟩))
      = .errorView "Failed to fetch orders" :=
  ⟨rfl, rfl, rfl, rfl⟩

/-! ### Expand/collapse interaction state

`OrdersTable` keeps a single selector `expandedOrderId : string | null`,
initially null. A row's button runs
`setExpandedOrderId(expandedOrderId === order.id ? null : order.id)`, and a
row is rendered expanded iff `expandedOrderId === order.id`. -/

/-- The `expandedOrderId` state: `none` is null. -/
def initialExpanded : Option String :=
  none

/-- The click handler of a row with id `id`. -/
def toggle (expandedOrderId : Option String) (id : String) : Option String :=
  if expandedOrderId = some id then none else some id

/-- A row with id `id` renders expanded iff the selector holds its id. -/
def isExpanded (expandedOrderId : Option String) (id : String) : Prop :=
  expandedOrderId = some id

instance (s : Option String) (id : String) : Decidable (isExpanded s id) :=
  inferInstanceAs (Decidable (s = some id))

/-- C6: every order starts collapsed; in every state at most one order is
expanded; toggling X then Y (distinct) leaves exactly Y expanded; toggling
the currently expanded order collapses it; a toggle of `x` always flips
whether `x` is expanded (so toggling is reversible and no state is
terminal). -/
theorem expandedOrderId_state_machine (s : Option String) (x y : String)
    (hxy : x ≠ y) :
    (∀ z, ¬ isExpanded initialExpanded z) ∧
    (∀ t : Option String, ∀ a b, isExpanded t a → isExpanded t b → a = b) ∧
    (toggle (toggle s x) y = some y ∧ ¬ isExpanded (toggle (toggle s x) y) x) ∧
    toggle (some x) x = none ∧
    (isExpanded (toggle s x) x ↔ ¬ isExpanded s x) ∧
    toggle s x ≠ s := by
  refine ⟨?_, ?_, ?_, ?_, ?_, ?_⟩
  · intro z h
    exact Option.noConfusion h
  · intro t a b ha hb
    rw [isExpanded] at ha hb
    rw [ha] at hb
    exact (Option.some.injEq _ _).mp hb
  · have hne : toggle s x ≠ some y := by
      rw [toggle]
      by_cases h : s = some x
      · rw [if_pos h]
        intro hc
        exact Option.noConfusion hc
      · rw [if_neg h]
        intro hc
        exact hxy ((Option.some.injEq _ _).mp hc)
    constructor
    · rw [toggle, if_neg hne]
    · intro hx'
      rw [isExpanded, toggle, if_neg hne] at hx'
      exact hxy ((Option.some.injEq _ _).mp hx'.symm)
  · simp [toggle]
  · by_cases h : s = some x
    · simp [toggle, isExpanded, h]
    · simp [toggle, isExpanded, h]
  · intro h
    by_cases h1 : s = some x
    · rw [toggle, if_pos h1] at h
      rw [h1] at h
      exact Option.noConfusion h
    · rw [toggle, if_neg h1] at h
      exact h1 h.symm

/-! ### Displayed order summary

The expanded row's summary block (subtotal line, optional delivery-fee line,
total line) reads `calculateSubtotal(order.items)`, `order.delivery_fee` and
`order.total_amount` directly. -/

/-- The three summary lines of an expanded order row. -/
structure OrderSummaryView where
  subtotalLine : Int
  deliveryFeeLine : Option Int
  totalLine : Int
  deriving DecidableEq, Repr

/-- The summary block rendered for an expanded order: subtotal is
`calculateSubtotal(order.items)`, the delivery-fee row appears only when
`order.delivery_fee > 0`, and the total row shows `order.total_amount`. -/
def renderSummary (o : Order) : OrderSummaryView where
  subtotalLine := calculateSubtotal o.items
  deliveryFeeLine := if o.delivery_fee > 0 then some o.delivery_fee else none
  totalLine := o.total_amount

/-- C7: the displayed total is the stored `total_amount` taken as-is and the
displayed subtotal is recomputed from the items; in particular for items
[(500, 2), (200, 1)] with delivery fee 300 and any stored total `t`, the
summary shows subtotal 1200 and total `t`, with no relation between
1200 + 300 and `t` imposed. -/
theorem renderSummary_trusts_total (o : Order) (t : Int) :
    (renderSummary o).totalLine = o.total_amount ∧
    (renderSummary o).subtotalLine = calculateSubtotal o.items ∧
    (renderSummary
        { id := "o1", order_token := "tok", name := "n", phone := "p",
          email := "e", special_instructions := "", payment_proof_url := none,
          payment_method := "cash", created_at := 0, delivery_fee := 300,
          total_amount := t,
          items := [⟨"a", 500, 2⟩, ⟨"b", 200, 1⟩] }).subtotalLine = 1200 ∧
    (renderSummary
        { id := "o1", order_token := "tok", name := "n", phone := "p",
          email := "e", special_instructions := "", payment_proof_url := none,
          payment_method := "cash", created_at := 0, delivery_fee := 300,
          total_amount := t,
          items := [⟨"a", 500, 2⟩, ⟨"b", 200, 1⟩] }).totalLine = t := by
  refine ⟨rfl, rfl, ?_, rfl⟩
  rfl

/-! ### Settings manager (`Admin.tsx`)

`loadSettings` runs `select(value).eq(key, resend_api_key).maybeSingle()`:
on error it only logs and clears the fetching flag; on absent data it leaves
the current value; on present data it stores the value. `handleSave` first
checks existence with `select(id).eq(key, ...).maybeSingle()` and branches to
`update` (value plus refreshed `updated_at`) or `insert` (key, value, static
description); any thrown error becomes the generic failure message. -/

/-- One row of the `settings` table. -/
structure SettingRec where
  key : String
  value : String
  description : Option String
  updated_at : Nat
  deriving DecidableEq, Repr

/-- The unique key both handlers use. -/
def settingsKey : String :=
  "resend_api_key"

/-- The static description the insert branch writes. -/
def settingsDescription : String :=
  "API key for Resend email service"

/-- `Admin` component state touched by the settings handlers. -/
structure AdminState where
  resendApiKey : String
  fetching : Bool
  message : Option (Bool × String)
  deriving DecidableEq, Repr

/-- `loadSettings`: a failed load is logged only (state untouched except the
fetching flag); `maybeSingle` data `none` means no record, leaving the value;
data `some v` stores `v`. -/
def loadSettings (resp : Resp String) (s : AdminState) : AdminState :=
  match resp with
  | .err => { s with fetching := false }
  | .ok none => { s with fetching := false }
  | .ok (some v) => { s with resendApiKey := v, fetching := false }

/-- C8: loading treats absence as a valid non-error outcome (value and
message unchanged), and a failed load behaves exactly like an absent record:
same resulting state, value untouched, nothing surfaced to the user. -/
theorem loadSettings_absent_and_error (resp : Resp String) (s : AdminState) :
    loadSettings .err s = loadSettings (.ok none) s ∧
    (loadSettings (.ok none) s).resendApiKey = s.resendApiKey ∧
    (loadSettings .err s).resendApiKey = s.resendApiKey ∧
    (loadSettings resp s).message = s.message ∧
    (loadSettings resp s).fetching = false :=
  ⟨rfl, rfl, rfl, by cases resp with
    | err => rfl
    | ok d => cases d <;> rfl,
   by cases resp with
    | err => rfl
    | ok d => cases d <;> rfl⟩

/-- The two user-visible outcomes `handleSave` can set. -/
inductive SaveMsg where
  | success
  | failure
  deriving DecidableEq, Repr

/-- Number of settings rows holding the unique key. -/
def countKey (db : List SettingRec) : Nat :=
  (db.filter (fun r => r.key == settingsKey)).length

/-- The row patch applied by the update branch
(`update({ value, updated_at }).eq(key, ...)`): rows holding the key get the
new value and a refreshed timestamp, other rows are untouched. -/
def patchRow (now : Nat) (value : String) (r : SettingRec) : SettingRec :=
  if r.key == settingsKey then
    { r with value := value, updated_at := now }
  else r

/-- The row written by the insert branch: key, value, static description. -/
def insertedRow (now : Nat) (value : String) : SettingRec :=
  { key := settingsKey, value := value,
    description := some settingsDescription, updated_at := now }

/-- `handleSave` over the settings table. `checkErr` tells whether the
existence check itself errors (then its data is null and the error object is
never consulted). The update branch patches every row with the key, setting
the value and refreshing the timestamp to `now`; the insert branch appends a
new row with the static description, but the unique constraint on `key`
rejects it when a row with the key already exists, which the catch block
turns into the generic failure message. -/
def handleSave (checkErr : Bool) (now : Nat) (value : String)
    (db : List SettingRec) : List SettingRec × SaveMsg :=
  let existingData : Option SettingRec :=
    if checkErr then none else db.find? (fun r => r.key == settingsKey)
  match existingData with
  | some _ => (db.map (patchRow now value), .success)
  | none =>
      if db.any (fun r => r.key == settingsKey) then
        (db, .failure)
      else
        (db ++ [insertedRow now value], .success)

/-- The table after a sequence of saves (existence checks succeeding),
each save given as (timestamp, value). -/
def saveSeq (saves : List (Nat × String)) (db : List SettingRec) :
    List SettingRec :=
  saves.foldl (fun d s => (handleSave false s.1 s.2 d).1) db

/-- Patching never changes a row's key. -/
theorem patchRow_key (now : Nat) (v : String) (r : SettingRec) :
    (patchRow now v r).key = r.key := by
  unfold patchRow
  split <;> rfl

/-- The update branch preserves the number of rows holding the key. -/
theorem countKey_map_patchRow (now : Nat) (v : String)
    (db : List SettingRec) :
    countKey (db.map (patchRow now v)) = countKey db := by
  rw [countKey, countKey, List.filter_map]
  have h : (fun r => r.key == settingsKey) ∘ patchRow now v
      = fun r => r.key == settingsKey := by
    funext r
    simp [Function.comp, patchRow_key]
  rw [h, List.length_map]

/-- One successful save from a table with at most one row for the key leaves
exactly one row for the key, holding the saved value. -/
theorem handleSave_step (now : Nat) (v : String) (db : List SettingRec)
    (h : countKey db ≤ 1) :
    countKey (handleSave false now v db).1 = 1 ∧
    ∀ r ∈ (handleSave false now v db).1,
      r.key = settingsKey → r.value = v := by
  cases hf : db.find? (fun r => r.key == settingsKey) with
  | none =>
      have hnone := List.find?_eq_none.mp hf
      have hany : db.any (fun r => r.key == settingsKey) = false :=
        List.any_eq_false.mpr hnone
      have hsave : handleSave false now v db
          = (db ++ [insertedRow now v], .success) := by
        simp [handleSave, hf, hany]
      rw [hsave]
      constructor
      · rw [countKey, List.filter_append]
        have hfe : db.filter (fun r => r.key == settingsKey) = [] := by
          rw [List.filter_eq_nil_iff]
          exact hnone
        rw [hfe]
        simp [insertedRow]
      · intro r hr hkey
        rcases List.mem_append.mp hr with hin | hin
        · exact absurd (by simp [hkey]) (hnone r hin)
        · have : r = insertedRow now v := by simpa using hin
          rw [this]
          rfl
  | some w =>
      have hw : w ∈ db := List.mem_of_find?_eq_some hf
      have hpw : (w.key == settingsKey) = true := by
        simpa using List.find?_some hf
      have hsave : handleSave false now v db
          = (db.map (patchRow now v), .success) := by
        simp [handleSave, hf]
      rw [hsave]
      constructor
      · rw [countKey_map_patchRow]
        have hmem : w ∈ db.filter (fun r => r.key == settingsKey) :=
          List.mem_filter.mpr ⟨hw, hpw⟩
        have hpos : 0 < countKey db := by
          rw [countKey]
          exact List.length_pos.mpr (List.ne_nil_of_mem hmem)
        omega
      · intro r hr hkey
        rcases List.mem_map.mp hr with ⟨r0, _, rfl⟩
        by_cases h0 : (r0.key == settingsKey) = true
        · simp [patchRow, h0]
        · rw [patchRow, if_neg h0] at hkey ⊢
          exact absurd (by simp [hkey]) h0

/-- After any nonempty run of successful saves from a table with at most one
row for the key, there is exactly one row for the key and it holds the last
saved value. -/
theorem saveSeq_inv (saves : List (Nat × String)) :
    ∀ db : List SettingRec, countKey db ≤ 1 → ∀ hne : saves ≠ [],
      countKey (saveSeq saves db) = 1 ∧
      ∀ r ∈ saveSeq saves db, r.key = settingsKey →
        r.value = (saves.getLast hne).2 := by
  induction saves with
  | nil =>
      intro db _ hne
      exact absurd rfl hne
  | cons s rest ih =>
      intro db h hne
      by_cases hr : rest = []
      · subst hr
        have hstep := handleSave_step s.1 s.2 db h
        exact ⟨hstep.1, fun r hm hk => hstep.2 r hm hk⟩
      · have hstep := handleSave_step s.1 s.2 db h
        have h1 : countKey (handleSave false s.1 s.2 db).1 ≤ 1 :=
          le_of_eq hstep.1
        have hrest := ih (handleSave false s.1 s.2 db).1 h1 hr
        have hfold : saveSeq (s :: rest) db
            = saveSeq rest (handleSave false s.1 s.2 db).1 := rfl
        rw [hfold]
        refine ⟨hrest.1, ?_⟩
        intro r hm hk
        rw [List.getLast_cons hr]
        exact hrest.2 r hm hk

/-- C4: saving follows upsert semantics on the unique key: with an existing
row the save takes the update branch (value replaced, timestamp refreshed,
success); with no row it takes the insert branch (new row with key, value and
the static description); and after any nonempty sequence of saves from a
table with at most one row for the key, exactly one row holds the key and its
value is the most recently saved one. -/
theorem handleSave_upsert (now : Nat) (v : String) (db : List SettingRec)
    (saves : List (Nat × String)) (hdb : countKey db ≤ 1)
    (hne : saves ≠ []) :
    ((∃ r ∈ db, r.key = settingsKey) →
      handleSave false now v db = (db.map (patchRow now v), .success)) ∧
    ((∀ r ∈ db, r.key ≠ settingsKey) →
      handleSave false now v db = (db ++ [insertedRow now v], .success)) ∧
    countKey (saveSeq saves db) = 1 ∧
    ∀ r ∈ saveSeq saves db, r.key = settingsKey →
      r.value = (saves.getLast hne).2 := by
  refine ⟨?_, ?_, (saveSeq_inv saves db hdb hne).1,
    (saveSeq_inv saves db hdb hne).2⟩
  · rintro ⟨r, hr, hk⟩
    have hsome : (db.find? (fun r => r.key == settingsKey)).isSome :=
      List.find?_isSome.mpr ⟨r, hr, by simp [hk]⟩
    cases hf : db.find? (fun r => r.key == settingsKey) with
    | none => rw [hf] at hsome; exact absurd hsome (by simp)
    | some w => simp [handleSave, hf]
  · intro hall
    have hf : db.find? (fun r => r.key == settingsKey) = none :=
      List.find?_eq_none.mpr (fun x hx => by simp [hall x hx])
    have hany : db.any (fun r => r.key == settingsKey) = false :=
      List.any_eq_false.mpr (fun x hx => by simp [hall x hx])
    simp [handleSave, hf, hany]

/-- C10: when the existence check itself errors for a key whose row exists,
`handleSave` ignores the check error and takes the insert branch, which the
unique-key constraint rejects: the table is unchanged, the user sees only the
generic failure message, while the same save with a successful check
succeeds. -/
theorem handleSave_checkError_ignored (now : Nat) (v : String)
    (db : List SettingRec) (h : ∃ r ∈ db, r.key = settingsKey) :
    (handleSave true now v db).1 = db ∧
    (handleSave true now v db).2 = .failure ∧
    (handleSave false now v db).2 = .success := by
  obtain ⟨r, hr, hk⟩ := h
  have hany : db.any (fun x => x.key == settingsKey) = true :=
    List.any_eq_true.mpr ⟨r, hr, by simp [hk]⟩
  have hsome : (db.find? (fun x => x.key == settingsKey)).isSome :=
    List.find?_isSome.mpr ⟨r, hr, by simp [hk]⟩
  refine ⟨by simp [handleSave, hany], by simp [handleSave, hany], ?_⟩
  cases hf : db.find? (fun x => x.key == settingsKey) with
  | none => rw [hf] at hsome; exact absurd hsome (by simp)
  | some w => simp [handleSave, hf]

/-! ### Concrete instances -/

/-- A concrete order row with the given id and creation timestamp. -/
def sampleRow (i : String) (t : Nat) : OrderRow :=
  { id := i, order_token := "tok", name := "n", phone := "p", email := "e",
    special_instructions := "", payment_proof_url := none,
    payment_method := "cash", created_at := t, delivery_fee := 0,
    total_amount := 0 }

/-- A concrete item-query environment where only the query for order id
"o1" fails. -/
def sampleItemsResp (i : String) : Resp (List OrderItem) :=
  if i = "o1" then .err else .ok (some [⟨"prod", 5, 1⟩])

/-- Witness for the item-failure claim at a concrete two-order batch where
the query for "o1" fails and the one for "o2" succeeds. -/
theorem fetchOrders_item_failure_witness :
    sampleItemsResp "o1" = .err ∧
    (∀ y, y ≠ "o1" → ∃ l, sampleItemsResp y = .ok (some l)) ∧
    ∃ res,
      fetchOrders ⟨.ok (some [sampleRow "o1" 2, sampleRow "o2" 1]),
        sampleItemsResp⟩ = .ok res ∧
      res.map Order.toOrderRow = [sampleRow "o1" 2, sampleRow "o2" 1] ∧
      ∀ o ∈ res, (o.id = "o1" → o.items = []) ∧
        (o.id ≠ "o1" → ∃ l, sampleItemsResp o.id = .ok (some l) ∧
          o.items = l) := by
  have h1 : sampleItemsResp "o1" = .err := by
    rw [sampleItemsResp, if_pos rfl]
  have h2 : ∀ y, y ≠ "o1" → ∃ l, sampleItemsResp y = .ok (some l) := by
    intro y hy
    exact ⟨[⟨"prod", 5, 1⟩], by rw [sampleItemsResp, if_neg hy]⟩
  exact ⟨h1, h2,
    fetchOrders_item_failure [sampleRow "o1" 2, sampleRow "o2" 1]
      sampleItemsResp "o1" h1 h2⟩

/-- Witness for the upsert claim: empty table, then two saves. -/
theorem handleSave_upsert_witness :
    countKey [] ≤ 1 ∧
    ([(1, "first"), (2, "second")] : List (Nat × String)) ≠ [] ∧
    (((∃ r ∈ ([] : List SettingRec), r.key = settingsKey) →
        handleSave false 0 "x" [] = (List.map (patchRow 0 "x") [], .success)) ∧
      ((∀ r ∈ ([] : List SettingRec), r.key ≠ settingsKey) →
        handleSave false 0 "x" [] = ([] ++ [insertedRow 0 "x"], .success)) ∧
      countKey (saveSeq [(1, "first"), (2, "second")] []) = 1 ∧
      ∀ r ∈ saveSeq [(1, "first"), (2, "second")] ([] : List SettingRec),
        r.key = settingsKey →
          r.value = (([(1, "first"), (2, "second")] :
            List (Nat × String)).getLast (List.cons_ne_nil _ _)).2) := by
  refine ⟨Nat.zero_le 1, List.cons_ne_nil _ _, ?_⟩
  exact handleSave_upsert 0 "x" [] [(1, "first"), (2, "second")]
    (Nat.zero_le 1) (List.cons_ne_nil _ _)

/-- Witness for the expand/collapse state machine at ids "a" and "b" from
the initial state. -/
theorem expandedOrderId_state_machine_witness :
    ("a" : String) ≠ "b" ∧
    ((∀ z, ¬ isExpanded initialExpanded z) ∧
      (∀ t : Option String, ∀ a b,
        isExpanded t a → isExpanded t b → a = b) ∧
      (toggle (toggle none "a") "b" = some "b" ∧
        ¬ isExpanded (toggle (toggle none "a") "b") "a") ∧
      toggle (some "a") "a" = none ∧
      (isExpanded (toggle none "a") "a" ↔ ¬ isExpanded none "a") ∧
      toggle none "a" ≠ none) := by
  have hab : ("a" : String) ≠ "b" := by decide
  exact ⟨hab, expandedOrderId_state_machine none "a" "b" hab⟩

/-- A concrete pre-existing settings row holding the unique key. -/
def sampleSetting : SettingRec :=
  { key := settingsKey, value := "old", description := none, updated_at := 0 }

/-- Witness for the ignored check error at a one-row table holding the key. -/
theorem handleSave_checkError_ignored_witness :
    (∃ r ∈ [sampleSetting], r.key = settingsKey) ∧
    ((handleSave true 7 "new" [sampleSetting]).1 = [sampleSetting] ∧
     (handleSave true 7 "new" [sampleSetting]).2 = .failure ∧
     (handleSave false 7 "new" [sampleSetting]).2 = .success) := by
  have h : ∃ r ∈ [sampleSetting], r.key = settingsKey :=
    ⟨sampleSetting, List.mem_singleton.mpr rfl, rfl⟩
  exact ⟨h, handleSave_checkError_ignored 7 "new" [sampleSetting] h⟩

end AdminPanel
